import Mathlib

/-!
Verification development for the findings aggregation and provenance engine
of the noseyparker secret-scanning datastore.

The definitions below are a shallow embedding of the Rust sources:

* `crates/noseyparker/src/match_type.rs` — the `Match` data model and its
  content-based identity scheme (`compute_structural_id`, `finding_id`);
* `crates/noseyparker/src/target.rs` and `target_set.rs` — the provenance
  model (`Target`, `TargetSet`);
* `crates/noseyparker/src/datastore.rs` — the persisted-collection
  operations (`analyze`, `get_summary`, `get_finding_metadata`,
  `import_annotations`) together with the document shapes they read and
  write;
* `crates/noseyparker/src/datastore/status.rs` — the reviewer `Status`.

Byte strings are represented as `List Nat` (each element a byte value),
BSON string fields as `String`, and machine counters as `Nat` (all counts
in the source are nonnegative lengths).  Fields that a reader accesses
with a defaulting accessor (`unwrap_or`, `.ok()`) are represented with
`Option`; fields accessed with `?` (hard failure when absent) are
represented as always-present, which matches every document this code
itself writes.  Floating-point score fields (`mean_score`, `score`) are
not represented: no verified property concerns them and they are the only
floating-point data in the sources.
-/

set_option maxRecDepth 100000

namespace NoseyParker

/-! ## SHA-1

`Match::compute_structural_id` and `Match::finding_id` hash their
serialized inputs with `noseyparker_digest::Sha1` and return the
lowercase hex digest.

Modelled from the spec: the digest implementation (`noseyparker_digest`
crate) is not among the provided sources; §4.1 requires a stable,
collision-resistant digest of a deterministic byte serialization.  The
source pins SHA-1, so SHA-1 is implemented here directly (FIPS 180-1),
operating on byte lists and returning the 40 hex-digit digest as a list
of ASCII codes.
-/

/-- Rotate a 32-bit word left by `n` bits. -/
def rotl32 (x n : Nat) : Nat :=
  ((x <<< n) ||| (x >>> (32 - n))) &&& 0xFFFFFFFF

/-- Big-endian 8-byte encoding of `n`. -/
def be64 (n : Nat) : List Nat :=
  (List.range 8).map (fun i => (n >>> (8 * (7 - i))) &&& 255)

/-- SHA-1 message padding: `0x80`, zeros to 56 mod 64, 8-byte bit length. -/
def sha1Pad (msg : List Nat) : List Nat :=
  let len := msg.length
  let padZeros := (119 - len % 64) % 64
  msg ++ [128] ++ List.replicate padZeros 0 ++ be64 (len * 8)

/-- Split into 64-byte chunks.  The fuel argument (initially the list
length) only makes the recursion structural; it never runs out. -/
def chunks64Aux : Nat → List Nat → List (List Nat)
  | _, [] => []
  | 0, _ :: _ => []
  | fuel + 1, a :: l => ((a :: l).take 64) :: chunks64Aux fuel ((a :: l).drop 64)

/-- Split a byte list into 64-byte chunks. -/
def chunks64 (l : List Nat) : List (List Nat) :=
  chunks64Aux l.length l

/-- Big-endian 32-bit words of a 64-byte chunk. -/
def toWords : List Nat → List Nat
  | b0 :: b1 :: b2 :: b3 :: rest =>
    ((b0 <<< 24) ||| (b1 <<< 16) ||| (b2 <<< 8) ||| b3) :: toWords rest
  | _ => []

/-- Extend the 16 words to 80, working on the reversed word list. -/
def extendRev (wsRev : List Nat) : Nat → List Nat
  | 0 => wsRev
  | n + 1 =>
    extendRev
      (rotl32 (wsRev.getD 2 0 ^^^ wsRev.getD 7 0 ^^^ wsRev.getD 13 0 ^^^ wsRev.getD 15 0) 1
        :: wsRev) n

/-- The 80-word schedule of one SHA-1 chunk. -/
def w80 (ws : List Nat) : List Nat :=
  (extendRev ws.reverse 64).reverse

/-- SHA-1 round function. -/
def sha1F (i b c d : Nat) : Nat :=
  if i < 20 then (b &&& c) ||| ((b ^^^ 0xFFFFFFFF) &&& d)
  else if i < 40 then b ^^^ c ^^^ d
  else if i < 60 then (b &&& c) ||| (b &&& d) ||| (c &&& d)
  else b ^^^ c ^^^ d

/-- SHA-1 round constants. -/
def sha1K (i : Nat) : Nat :=
  if i < 20 then 0x5A827999
  else if i < 40 then 0x6ED9EBA1
  else if i < 60 then 0x8F1BBCDC
  else 0xCA62C1D6

/-- The 80 SHA-1 rounds over the indexed word schedule. -/
def sha1Rounds : List (Nat × Nat) → Nat × Nat × Nat × Nat × Nat → Nat × Nat × Nat × Nat × Nat
  | [], st => st
  | (i, w) :: rest, (a, b, c, d, e) =>
    let temp := (rotl32 a 5 + sha1F i b c d + e + sha1K i + w) &&& 0xFFFFFFFF
    sha1Rounds rest (temp, a, rotl32 b 30, c, d)

/-- Fold one 64-byte chunk into the running SHA-1 state. -/
def processChunk (h : Nat × Nat × Nat × Nat × Nat) (chunk : List Nat) :
    Nat × Nat × Nat × Nat × Nat :=
  let (h0, h1, h2, h3, h4) := h
  let (a, b, c, d, e) := sha1Rounds ((List.range 80).zip (w80 (toWords chunk))) h
  ((h0 + a) &&& 0xFFFFFFFF, (h1 + b) &&& 0xFFFFFFFF, (h2 + c) &&& 0xFFFFFFFF,
   (h3 + d) &&& 0xFFFFFFFF, (h4 + e) &&& 0xFFFFFFFF)

/-- ASCII code of a lowercase hex digit. -/
def hexDigitCode (n : Nat) : Nat :=
  if n < 10 then 48 + n else 87 + n

/-- Eight hex-digit ASCII codes of a 32-bit word. -/
def wordHex (w : Nat) : List Nat :=
  (List.range 8).map (fun i => hexDigitCode ((w >>> (28 - 4 * i)) &&& 15))

/-- SHA-1 of a byte list, as the ASCII codes of the 40-character lowercase
hex digest (mirroring `Sha1::hexdigest`). -/
def sha1Hexdigest (msg : List Nat) : List Nat :=
  let (h0, h1, h2, h3, h4) :=
    (chunks64 (sha1Pad msg)).foldl processChunk
      (0x67452301, 0xEFCDAB89, 0x98BADCFE, 0x10325476, 0xC3D2E1F0)
  wordHex h0 ++ wordHex h1 ++ wordHex h2 ++ wordHex h3 ++ wordHex h4

/-! ## Serialization helpers

`Match::finding_id` serializes `self.groups` with `serde_json`; a `Group`
serializes (per the `#[serde(with = "BStringBase64")]` attribute in
`match_type.rs`) as a standard base64 string with padding, and `Groups`
as a compact JSON array of those strings.
-/

/-- ASCII code of the standard base64 alphabet at index `n`. -/
def b64Code (n : Nat) : Nat :=
  if n < 26 then 65 + n
  else if n < 52 then 97 + (n - 26)
  else if n < 62 then 48 + (n - 52)
  else if n = 62 then 43
  else 47

/-- Standard base64 with `=` padding, bytes to ASCII codes. -/
def base64Encode : List Nat → List Nat
  | b1 :: b2 :: b3 :: rest =>
    b64Code (b1 >>> 2) :: b64Code (((b1 &&& 3) <<< 4) ||| (b2 >>> 4)) ::
    b64Code (((b2 &&& 15) <<< 2) ||| (b3 >>> 6)) :: b64Code (b3 &&& 63) ::
    base64Encode rest
  | [b1, b2] =>
    [b64Code (b1 >>> 2), b64Code (((b1 &&& 3) <<< 4) ||| (b2 >>> 4)),
     b64Code ((b2 &&& 15) <<< 2), 61]
  | [b1] =>
    [b64Code (b1 >>> 2), b64Code ((b1 &&& 3) <<< 4), 61, 61]
  | [] => []

/-- JSON escaping of one string byte.  Base64 output (the only text this
development feeds through it) contains no byte that needs escaping. -/
def jsonEscapeByte (b : Nat) : List Nat :=
  if b = 34 then [92, 34]
  else if b = 92 then [92, 92]
  else if b < 32 then [92, 117, 48, 48, hexDigitCode (b >>> 4), hexDigitCode (b &&& 15)]
  else [b]

/-- A JSON string literal (ASCII codes) for the given string bytes. -/
def jsonStringLit (s : List Nat) : List Nat :=
  [34] ++ (s.map jsonEscapeByte).flatten ++ [34]

/-- A compact JSON array (ASCII codes) of pre-serialized items. -/
def jsonArray (items : List (List Nat)) : List Nat :=
  [91] ++ (List.intercalate [44] items) ++ [93]

/-- Decimal ASCII digits of `n`; the fuel (initially `n`) never runs out. -/
def natDecimalAux : Nat → Nat → List Nat
  | 0, _ => []
  | fuel + 1, n => if n = 0 then [] else natDecimalAux fuel (n / 10) ++ [48 + n % 10]

/-- Decimal ASCII rendering of a natural number (as `write!` renders
`usize` span endpoints). -/
def natDecimal (n : Nat) : List Nat :=
  if n = 0 then [48] else natDecimalAux n n

/-! ## The `Match` data model (`match_type.rs`) -/

/-- One capture group's matched byte string (`pub struct Group(pub BString)`). -/
structure Group where
  bytes : List Nat
deriving DecidableEq, Repr

/-- Ordered sequence of capture groups (`pub struct Groups(pub SmallVec<[Group; 1]>)`). -/
structure Groups where
  groups : List Group
deriving DecidableEq, Repr

/-- Modelled from the spec: `BlobId` (from `blob_id.rs`, not among the
provided sources) is an opaque, hex-encodable content hash of a blob; it
enters the identity scheme only through its hex encoding `BlobId::hex()`,
so it is represented here by that hex encoding (ASCII codes). -/
structure BlobId where
  hexBytes : List Nat
deriving DecidableEq, Repr

/-- Byte offsets of a match within its blob (`OffsetSpan`). -/
structure OffsetSpan where
  start : Nat
  «end» : Nat
deriving DecidableEq, Repr

/-- A line/column source position (`SourcePoint`). -/
structure SourcePoint where
  line : Nat
  column : Nat
deriving DecidableEq, Repr

/-- A source span (`SourceSpan`). -/
structure SourceSpan where
  start : SourcePoint
  «end» : SourcePoint
deriving DecidableEq, Repr

/-- A match location: both spans (`Location`). -/
structure Location where
  offset_span : OffsetSpan
  source_span : SourceSpan
deriving DecidableEq, Repr

/-- Context snippet around a match (`Snippet`), three byte strings. -/
structure Snippet where
  before : List Nat
  matching : List Nat
  after : List Nat
deriving DecidableEq, Repr

/-- One rule match within one blob (`Match` in `match_type.rs`).  String
fields are byte strings (`List Nat`) since they feed the byte-level
identity hashing. -/
structure Match where
  blob_id : BlobId
  location : Location
  groups : Groups
  snippet : Snippet
  structural_id : List Nat
  rule_structural_id : List Nat
  rule_text_id : List Nat
  rule_name : List Nat
deriving DecidableEq, Repr

/-- `Match::compute_structural_id`: SHA-1 hex digest of
`"{rule_structural_id}\0{blob_id.hex()}\0{span.start}\0{span.end}"`. -/
def Match.compute_structural_id (rule_structural_id : List Nat) (blob_id : BlobId)
    (span : OffsetSpan) : List Nat :=
  sha1Hexdigest
    (rule_structural_id ++ [0] ++ blob_id.hexBytes ++ [0] ++
      natDecimal span.start ++ [0] ++ natDecimal span.«end»)

/-- Serialization of `Groups` as compact JSON (what
`serde_json::to_writer` emits for the `Groups` value): an array of
standard-base64-with-padding strings. -/
def serializeGroups (gs : Groups) : List Nat :=
  jsonArray (gs.groups.map (fun g => jsonStringLit (base64Encode g.bytes)))

/-- `Match::finding_id`: SHA-1 hex digest of
`"{rule_structural_id}\0"` followed by the JSON serialization of
`self.groups`. -/
def Match.finding_id (m : Match) : List Nat :=
  sha1Hexdigest (m.rule_structural_id ++ [0] ++ serializeGroups m.groups)

/-- A concrete `Match` with the given rule structural id and groups; the
remaining fields are fixed inputs (none of them enters `finding_id`). -/
def mkTestMatch (rid : List Nat) (gs : List (List Nat)) : Match :=
  { blob_id := ⟨[97, 98, 49, 50]⟩
    location := ⟨⟨3, 7⟩, ⟨⟨1, 4⟩, ⟨1, 8⟩⟩⟩
    groups := ⟨gs.map Group.mk⟩
    snippet := ⟨[], [115], []⟩
    structural_id := Match.compute_structural_id rid ⟨[97, 98, 49, 50]⟩ ⟨3, 7⟩
    rule_structural_id := rid
    rule_text_id := [116]
    rule_name := [110] }

/-- Known-answer test: SHA-1 of `"abc"` (FIPS 180-1 appendix A). -/
theorem sha1_known_answer_abc :
    sha1Hexdigest [97, 98, 99] =
      [97, 57, 57, 57, 51, 101, 51, 54, 52, 55, 48, 54, 56, 49, 54, 97, 98, 97, 51, 101,
       50, 53, 55, 49, 55, 56, 53, 48, 99, 50, 54, 99, 57, 99, 100, 48, 100, 56, 57, 100] := by
  decide

/-- Sanity check of the `Groups` serialization: groups `[b"a", b"b"]`
serialize as the compact JSON `["YQ==","Yg=="]`. -/
theorem serializeGroups_example :
    serializeGroups ⟨[⟨[97]⟩, ⟨[98]⟩]⟩ =
      [91, 34, 89, 81, 61, 61, 34, 44, 34, 89, 103, 61, 61, 34, 93] := by
  decide

/-- Known-answer test for `finding_id` (digest computed independently):
rule `"r"`, groups `[b"a", b"b"]`. -/
theorem finding_id_known_answer :
    (mkTestMatch [114] [[97], [98]]).finding_id =
      [57, 97, 57, 53, 48, 50, 99, 97, 51, 49, 55, 102, 98, 98, 97, 102, 57, 100, 53, 56,
       50, 101, 50, 51, 49, 100, 99, 57, 99, 50, 55, 98, 101, 49, 99, 100, 51, 54, 98, 100] := by
  decide

/-- Known-answer test for `compute_structural_id` (digest computed
independently): rule `"r"`, blob hex `"ab12"`, span `3..7`. -/
theorem compute_structural_id_known_answer :
    Match.compute_structural_id [114] ⟨[97, 98, 49, 50]⟩ ⟨3, 7⟩ =
      [57, 57, 50, 49, 48, 51, 48, 48, 54, 98, 48, 51, 57, 102, 102, 99, 53, 98, 49, 97,
       54, 100, 50, 51, 98, 100, 99, 98, 57, 49, 49, 49, 52, 50, 97, 98, 49, 54, 49, 97] := by
  decide

/-! ## Provenance model (`target.rs`, `target_set.rs`) -/

/-- Modelled from the spec: `CommitMetadata` (from the external
`input_enumerator` crate) records the first commit in which a blob was
observed; it is opaque to this engine, so it is represented by an opaque
string. -/
def CommitMetadata := String
deriving DecidableEq, Repr

/-- `CommitTarget`: the first commit in which a blob was observed at a
given path. -/
structure CommitTarget where
  commit_metadata : CommitMetadata
  blob_path : List Nat
deriving DecidableEq, Repr

/-- Where a blob or match was found when scanning (`enum Target`).
Paths (`PathBuf`) are represented as strings; the `Extended` variant's
arbitrary JSON value is opaque to every operation verified here and is
represented by its serialized text. -/
inductive Target where
  | File (path : String)
  | GitRepo (repo_path : String) (first_commit : Option CommitTarget)
  | Extended (value : String)
deriving DecidableEq, Repr

/-- A non-empty set of `Target` entries (`struct TargetSet`). -/
structure TargetSet where
  target : Target
  more_target : List Target
deriving DecidableEq, Repr

/-- The repo paths of `GitRepo` entries carrying commit information (the
`git_repos_with_detailed` hash set in `TargetSet::new`; represented as a
list used only through membership). -/
def detailedRepoPaths (l : List Target) : List String :=
  l.foldl
    (fun acc t =>
      match t with
      | Target.GitRepo p (some _) => p :: acc
      | _ => acc)
    []

/-- The retention predicate of `TargetSet::new`'s filter: a `GitRepo`
entry survives when it has commit information or no detailed entry for
the same repo path exists; `File` and `Extended` entries always survive. -/
def keepTarget (detailed : List String) : Target → Bool
  | Target.GitRepo _ (some _) => true
  | Target.GitRepo p none => !(detailed.contains p)
  | Target.File _ => true
  | Target.Extended _ => true

/-- `TargetSet::new`: filter out redundant less-specific `GitRepo`
entries, then split off the first survivor (`it.next().unwrap()`).  The
`[]` arm mirrors the unwrap's panic case; `keepTarget_filter_ne_nil`
below proves it unreachable. -/
def TargetSet.new (target : Target) (more_target : List Target) : TargetSet :=
  let all := target :: more_target
  let detailed := detailedRepoPaths all
  match all.filter (keepTarget detailed) with
  | f :: rest => ⟨f, rest⟩
  | [] => ⟨target, more_target⟩

/-- `TargetSet::try_from_iter`: fails on an empty input, otherwise
delegates to `TargetSet::new`. -/
def TargetSet.try_from_iter (l : List Target) : Option TargetSet :=
  match l with
  | [] => none
  | t :: mt => some (TargetSet.new t mt)

/-- `TargetSet::first`. -/
def TargetSet.first (ts : TargetSet) : Target :=
  ts.target

/-- `TargetSet::len`. -/
def TargetSet.len (ts : TargetSet) : Nat :=
  1 + ts.more_target.length

/-- The members of a `TargetSet` in order (`TargetSet::iter`). -/
def TargetSet.members (ts : TargetSet) : List Target :=
  ts.target :: ts.more_target

/-- Membership in `detailedRepoPaths`: exactly the repo paths of
`GitRepo` entries with commit information. -/
theorem mem_detailedRepoPaths (l : List Target) (p : String) :
    p ∈ detailedRepoPaths l ↔ ∃ c, Target.GitRepo p (some c) ∈ l := by
  have key : ∀ (l : List Target) (acc : List String),
      p ∈ l.foldl
        (fun acc t =>
          match t with
          | Target.GitRepo q (some _) => q :: acc
          | _ => acc)
        acc ↔ p ∈ acc ∨ ∃ c, Target.GitRepo p (some c) ∈ l := by
    intro l
    induction l with
    | nil => simp
    | cons t rest ih =>
      intro acc
      cases t with
      | File q => simp [ih]
      | Extended v => simp [ih]
      | GitRepo q fc =>
        cases fc with
        | none => simp [ih]
        | some c =>
          simp only [List.foldl_cons, ih, List.mem_cons, List.mem_cons]
          constructor
          · rintro (⟨h | h⟩ | ⟨c2, h⟩)
            · exact Or.inr ⟨c, by simp [h]⟩
            · exact Or.inl h
            · exact Or.inr ⟨c2, Or.inr h⟩
          · rintro (h | ⟨c2, h | h⟩)
            · exact Or.inl (Or.inr h)
            · cases h
              exact Or.inl (Or.inl rfl)
            · exact Or.inr ⟨c2, h⟩
  simpa using key l []

/-- The filter inside `TargetSet::new` never discards every entry, so the
`it.next().unwrap()` in the source never panics. -/
theorem keepTarget_filter_ne_nil (t : Target) (mt : List Target) :
    (t :: mt).filter (keepTarget (detailedRepoPaths (t :: mt))) ≠ [] := by
  intro hnil
  have hall : ∀ x ∈ t :: mt, keepTarget (detailedRepoPaths (t :: mt)) x = false := by
    intro x hx
    by_contra hne
    have hkeep : keepTarget (detailedRepoPaths (t :: mt)) x = true := by
      cases h : keepTarget (detailedRepoPaths (t :: mt)) x
      · exact absurd h hne
      · rfl
    have : x ∈ (t :: mt).filter (keepTarget (detailedRepoPaths (t :: mt))) :=
      List.mem_filter.mpr ⟨hx, hkeep⟩
    rw [hnil] at this
    exact absurd this (List.not_mem_nil x)
  have ht := hall t (List.mem_cons_self t mt)
  cases t with
  | File p => simp [keepTarget] at ht
  | Extended v => simp [keepTarget] at ht
  | GitRepo p fc =>
    cases fc with
    | some c => simp [keepTarget] at ht
    | none =>
      have hmem : p ∈ detailedRepoPaths (Target.GitRepo p none :: mt) := by
        simp only [keepTarget, Bool.not_eq_false'] at ht
        exact List.elem_iff.mp ht
      obtain ⟨c, hc⟩ := (mem_detailedRepoPaths _ p).mp hmem
      have := hall _ hc
      simp [keepTarget] at this

/-- The members of `TargetSet.new t mt` are exactly the survivors of the
redundancy filter, in order. -/
theorem TargetSet.members_new (t : Target) (mt : List Target) :
    (TargetSet.new t mt).members =
      (t :: mt).filter (keepTarget (detailedRepoPaths (t :: mt))) := by
  unfold TargetSet.new
  cases h : (t :: mt).filter (keepTarget (detailedRepoPaths (t :: mt))) with
  | nil => exact absurd h (keepTarget_filter_ne_nil t mt)
  | cons f rest => simp [TargetSet.members, h]

/-! ## Datastore document shapes and operations (`datastore.rs`)

The polodb collections are embedded as Lean lists of typed documents in
insertion order; `find` streams the whole list, `find_one` returns the
first matching document, `insert_one` appends, and `delete_many {}`
empties the collection.  The Rust `HashMap` accumulators are embedded as
association lists keyed by first occurrence; every property verified here
is insensitive to the iteration order of the accumulator.
-/

/-- Reviewer status of a match (`datastore/status.rs`). -/
inductive Status where
  | Accept
  | Reject
deriving DecidableEq, Repr

/-- The fields of the nested `"match"` subdocument of a stored match
document that `Datastore::analyze` reads (each with `unwrap_or`
defaulting, hence `Option`). -/
structure MatchData where
  rule_name : Option String
  rule_text_id : Option String
  rule_structural_id : Option String
  finding_id : Option String
deriving DecidableEq, Repr

/-- One document of the `matches` collection.  `matchData` is the
`"match"` subdocument (`analyze` fails when it is absent); `groups` and
`blob_id` are the top-level fields other queries read; `docId` stands for
the remaining stored fields, keeping distinct documents distinct. -/
structure MatchDoc where
  matchData : Option MatchData
  groups : List String
  blob_id : String
  docId : Nat
deriving DecidableEq, Repr

/-- One document of the `findings` collection.  The non-optional fields
are exactly the ones `Datastore::analyze` writes (and `get_summary` reads
with a hard failure when absent); the optional fields are ones
`get_finding_metadata` reads with a default but `analyze` never writes. -/
structure FindingDoc where
  rule_name : String
  rule_structural_id : String
  finding_id : String
  count : Nat
  «matches» : List MatchDoc
  accept_count : Nat
  reject_count : Nat
  mixed_count : Nat
  unlabeled_count : Nat
  num_matches : Option Nat
  groups : Option (List String)
  rule_text_id : Option String
  comment : Option String
  statuses : Option (List Status)
deriving DecidableEq, Repr

/-- The `matches` and `findings` collections of a datastore.  (The
`annotations` collection is threaded explicitly through
`import_annotations` below.) -/
structure Datastore where
  «matches» : List MatchDoc
  findings : List FindingDoc
deriving DecidableEq, Repr

/-- The grouping key `(rule_name, rule_structural_id, finding_id)` that
`Datastore::analyze` computes for one match document, with the source's
`unwrap_or` defaults.  Note that `finding_id` is the stored field of the
match subdocument (absent in every document the scanner writes — the
source marks it `todo: this is always empty`), not `Match::finding_id()`. -/
def matchKey (md : MatchData) : String × String × String :=
  (md.rule_name.getD "Unknown Rule", md.rule_structural_id.getD "", md.finding_id.getD "")

/-- Append a match document to its key's group, keeping keys in first
occurrence order (the `entry(...).or_insert_with(Vec::new).push(doc)` of
the source's `HashMap` accumulator). -/
def insertGrouped (k : String × String × String) (d : MatchDoc) :
    List ((String × String × String) × List MatchDoc) →
      List ((String × String × String) × List MatchDoc)
  | [] => [(k, [d])]
  | (k2, ds) :: rest =>
    if k = k2 then (k2, ds ++ [d]) :: rest else (k2, ds) :: insertGrouped k d rest

/-- The grouping loop of `Datastore::analyze`: fails (like the source's
`context("'match' field not present")?`) on a document without a
`"match"` subdocument. -/
def groupMatches :
    List MatchDoc → List ((String × String × String) × List MatchDoc) →
      Except String (List ((String × String × String) × List MatchDoc))
  | [], acc => .ok acc
  | d :: rest, acc =>
    match d.matchData with
    | none => .error "'match' field not present"
    | some md => groupMatches rest (insertGrouped (matchKey md) d acc)

/-- The finding document `Datastore::analyze` inserts for one group:
`count = |matches|`, the embedded match list, and status counters
`{0, 0, 0, count}`. -/
def mkFindingDoc :
    (String × String × String) × List MatchDoc → FindingDoc
  | ((rule_name, rule_structural_id, finding_id), ms) =>
    { rule_name := rule_name
      rule_structural_id := rule_structural_id
      finding_id := finding_id
      count := ms.length
      «matches» := ms
      accept_count := 0
      reject_count := 0
      mixed_count := 0
      unlabeled_count := ms.length
      num_matches := none
      groups := none
      rule_text_id := none
      comment := none
      statuses := none }

/-- `Datastore::analyze`: delete all findings, group all match documents
by `matchKey`, and insert one finding document per group.  When a match
document lacks its `"match"` subdocument the error propagates after the
deletion (the findings collection stays empty). -/
def Datastore.analyze (ds : Datastore) : Datastore × Except String Unit :=
  let cleared : Datastore := { ds with findings := [] }
  match groupMatches ds.«matches» [] with
  | .ok grouped => ({ cleared with findings := grouped.map mkFindingDoc }, .ok ())
  | .error e => (cleared, .error e)

/-- One per-rule rollup entry (`FindingSummaryEntry`). -/
structure FindingSummaryEntry where
  rule_name : String
  distinct_count : Nat
  total_count : Nat
  accept_count : Nat
  reject_count : Nat
  mixed_count : Nat
  unlabeled_count : Nat
deriving DecidableEq, Repr

/-- Fold one finding document into the summary accumulator: the
`entry(rule_name).and_modify(...).or_insert(...)` of
`Datastore::get_summary`, with entries kept in first occurrence order. -/
def summaryInsert (doc : FindingDoc) :
    List FindingSummaryEntry → List FindingSummaryEntry
  | [] =>
    [{ rule_name := doc.rule_name
       distinct_count := 1
       total_count := doc.count
       accept_count := doc.accept_count
       reject_count := doc.reject_count
       mixed_count := doc.mixed_count
       unlabeled_count := doc.unlabeled_count }]
  | e :: rest =>
    if e.rule_name = doc.rule_name then
      { e with
        distinct_count := e.distinct_count + 1
        total_count := e.total_count + doc.count
        accept_count := e.accept_count + doc.accept_count
        reject_count := e.reject_count + doc.reject_count
        mixed_count := e.mixed_count + doc.mixed_count
        unlabeled_count := e.unlabeled_count + doc.unlabeled_count } :: rest
    else
      e :: summaryInsert doc rest

/-- `Datastore::get_summary`: one summary entry per distinct rule name
over all finding documents. -/
def Datastore.get_summary (ds : Datastore) : List FindingSummaryEntry :=
  ds.findings.foldl (fun acc d => summaryInsert d acc) []

/-- A per-finding listing record (`FindingMetadata`). -/
structure FindingMetadata where
  finding_id : String
  groups : List String
  rule_structural_id : String
  rule_text_id : String
  rule_name : String
  num_matches : Nat
  comment : Option String
  statuses : List Status
deriving DecidableEq, Repr

/-- `Datastore::get_finding_metadata`: one `FindingMetadata` per finding
document, with every absent optional field defaulted (`unwrap_or` /
`unwrap_or_else` in the source).  In particular `num_matches` comes from
the stored `"num_matches"` field — which `analyze` never writes — with
default `0`. -/
def Datastore.get_finding_metadata (ds : Datastore) : List FindingMetadata :=
  ds.findings.map fun doc =>
    { finding_id := doc.finding_id
      groups := doc.groups.getD []
      rule_structural_id := doc.rule_structural_id
      rule_text_id := doc.rule_text_id.getD ""
      rule_name := doc.rule_name
      num_matches := doc.num_matches.getD 0
      comment := doc.comment
      statuses := doc.statuses.getD [] }

/-! ## Annotation merge engine (`Datastore::import_annotations`) -/

/-- One document of the shared `annotations` collection.  Finding
annotations and match annotations are stored in this one collection; a
match-annotation document additionally carries `match_id` (and blob/span
data), and both kinds carry a `finding_id` and a `comment`. -/
structure AnnotationDoc where
  finding_id : String
  rule_name : String
  rule_text_id : String
  rule_structural_id : String
  groups : List String
  comment : String
  match_id : Option String
  blob_id : Option String
  start_byte : Option Nat
  end_byte : Option Nat
  status : Option Status
deriving DecidableEq, Repr

/-- An imported finding-level annotation (`FindingAnnotation`). -/
structure FindingAnnotation where
  finding_id : String
  rule_name : String
  rule_text_id : String
  rule_structural_id : String
  groups : List String
  comment : String
deriving DecidableEq, Repr

/-- An imported match-level annotation (`MatchAnnotation`). -/
structure MatchAnnotation where
  finding_id : String
  rule_name : String
  rule_text_id : String
  rule_structural_id : String
  match_id : String
  blob_id : String
  start_byte : Nat
  end_byte : Nat
  groups : List String
  status : Option Status
  comment : Option String
deriving DecidableEq, Repr

/-- An `Annotations` batch: the unit exchanged on import/export. -/
structure Annotations where
  match_annotations : List MatchAnnotation
  finding_annotations : List FindingAnnotation
deriving DecidableEq, Repr

/-- Reconciliation statistics (`struct Stats` in `import_annotations`). -/
structure ImportStats where
  n_imported : Nat
  n_conflicting : Nat
  n_existing : Nat
  n_missing : Nat
deriving DecidableEq, Repr

/-- The all-zero initial statistics (`Stats::default()`). -/
def ImportStats.init : ImportStats :=
  ⟨0, 0, 0, 0⟩

/-- The annotation document inserted for a new finding annotation. -/
def FindingAnnotation.toDoc (fa : FindingAnnotation) : AnnotationDoc :=
  { finding_id := fa.finding_id
    rule_name := fa.rule_name
    rule_text_id := fa.rule_text_id
    rule_structural_id := fa.rule_structural_id
    groups := fa.groups
    comment := fa.comment
    match_id := none
    blob_id := none
    start_byte := none
    end_byte := none
    status := none }

/-- One iteration of the finding-annotation loop of
`Datastore::import_annotations`: look up the first stored annotation
document (of either kind) whose `finding_id` matches, then classify. -/
def importFindingAnn (coll : List AnnotationDoc) (stats : ImportStats)
    (fa : FindingAnnotation) : List AnnotationDoc × ImportStats :=
  match coll.find? (fun d => d.finding_id == fa.finding_id) with
  | some d =>
    if d.comment == fa.comment then
      (coll, { stats with n_existing := stats.n_existing + 1 })
    else
      (coll, { stats with n_conflicting := stats.n_conflicting + 1 })
  | none =>
    (coll ++ [fa.toDoc], { stats with n_imported := stats.n_imported + 1 })

/-- The annotation document inserted for a new match annotation. -/
def MatchAnnotation.toDoc (ma : MatchAnnotation) : AnnotationDoc :=
  { finding_id := ma.finding_id
    rule_name := ma.rule_name
    rule_text_id := ma.rule_text_id
    rule_structural_id := ma.rule_structural_id
    groups := ma.groups
    comment := ma.comment.getD ""
    match_id := some ma.match_id
    blob_id := some ma.blob_id
    start_byte := some ma.start_byte
    end_byte := some ma.end_byte
    status := ma.status }

/-- One iteration of the match-annotation loop of
`Datastore::import_annotations`, keyed by `match_id`. -/
def importMatchAnn (coll : List AnnotationDoc) (stats : ImportStats)
    (ma : MatchAnnotation) : List AnnotationDoc × ImportStats :=
  match coll.find? (fun d => d.match_id == some ma.match_id) with
  | some d =>
    if d.comment == ma.comment.getD "" then
      (coll, { stats with n_existing := stats.n_existing + 1 })
    else
      (coll, { stats with n_conflicting := stats.n_conflicting + 1 })
  | none =>
    (coll ++ [ma.toDoc], { stats with n_imported := stats.n_imported + 1 })

/-- `Datastore::import_annotations` over the `annotations` collection:
process every finding annotation, then every match annotation, returning
the updated collection and both statistics records. -/
def import_annotations (coll : List AnnotationDoc) (anns : Annotations) :
    List AnnotationDoc × ImportStats × ImportStats :=
  let fRes := anns.finding_annotations.foldl
    (fun (p : List AnnotationDoc × ImportStats) fa => importFindingAnn p.1 p.2 fa)
    (coll, ImportStats.init)
  let mRes := anns.match_annotations.foldl
    (fun (p : List AnnotationDoc × ImportStats) ma => importMatchAnn p.1 p.2 ma)
    (fRes.1, ImportStats.init)
  (mRes.1, fRes.2, mRes.2)

/-! ## Claim theorems -/

/-- C6: A `TargetSet` can never be constructed empty:
`TargetSet::try_from_iter` applied to an empty iterable fails,
`try_from_iter` applied to a single target succeeds with `len() == 1`,
and every constructed `TargetSet` has `len() >= 1`. -/
theorem claim_C6 :
    TargetSet.try_from_iter [] = none
  ∧ (∀ t : Target, ∃ ts : TargetSet, TargetSet.try_from_iter [t] = some ts ∧ ts.len = 1)
  ∧ (∀ (l : List Target) (ts : TargetSet), TargetSet.try_from_iter l = some ts → 1 ≤ ts.len) := by
  refine ⟨rfl, ?_, ?_⟩
  · intro t
    cases t with
    | File p => exact ⟨_, rfl, rfl⟩
    | Extended v => exact ⟨_, rfl, rfl⟩
    | GitRepo p fc =>
      cases fc with
      | none => exact ⟨_, rfl, rfl⟩
      | some c => exact ⟨_, rfl, rfl⟩
  · intro l ts h
    cases l with
    | nil => exact absurd h (by simp [TargetSet.try_from_iter])
    | cons t mt =>
      simp only [TargetSet.try_from_iter, Option.some.injEq] at h
      subst h
      simp [TargetSet.len]

/-- Closed witness for C6: the single-target and nonemptiness cases at the
concrete target `File "a"`. -/
theorem claim_C6_witness :
    TargetSet.try_from_iter [Target.File "a"] = some ⟨Target.File "a", []⟩ ∧
    1 ≤ (TargetSet.mk (Target.File "a") []).len :=
  ⟨rfl, claim_C6.2.2 [Target.File "a"] ⟨Target.File "a", []⟩ rfl⟩

/-- C7: `TargetSet` construction collapses redundant provenance: whenever
some `GitRepo` entry for repo path `P` carries commit information, no
`GitRepo` entry for `P` without commit information survives, while `File`
and `Extended` entries are never dropped (their multiplicities are
preserved); and `[GitRepo{P, None}, GitRepo{P, Some c}]` yields a
one-element set holding only the entry with commit information. -/
theorem claim_C7 (t : Target) (mt : List Target) :
    (∀ P c, Target.GitRepo P (some c) ∈ t :: mt →
        Target.GitRepo P none ∉ (TargetSet.new t mt).members)
  ∧ (∀ p, (TargetSet.new t mt).members.count (Target.File p) =
        (t :: mt).count (Target.File p))
  ∧ (∀ v, (TargetSet.new t mt).members.count (Target.Extended v) =
        (t :: mt).count (Target.Extended v))
  ∧ (∀ P c, TargetSet.try_from_iter [Target.GitRepo P none, Target.GitRepo P (some c)] =
        some ⟨Target.GitRepo P (some c), []⟩) := by
  refine ⟨?_, ?_, ?_, ?_⟩
  · intro P c hPc hmem
    rw [TargetSet.members_new] at hmem
    have h2 := (List.mem_filter.mp hmem).2
    have hdet : P ∈ detailedRepoPaths (t :: mt) := (mem_detailedRepoPaths _ P).mpr ⟨c, hPc⟩
    simp only [keepTarget, Bool.not_eq_true'] at h2
    simp at h2
    exact h2 hdet
  · intro p
    rw [TargetSet.members_new]
    exact List.count_filter (by simp [keepTarget])
  · intro v
    rw [TargetSet.members_new]
    exact List.count_filter (by simp [keepTarget])
  · intro P c
    simp only [TargetSet.try_from_iter, Option.some.injEq]
    unfold TargetSet.new
    simp [detailedRepoPaths, keepTarget, List.filter]

/-- Closed witness for C7: with input `[GitRepo "p" Some, GitRepo "p" None]`
the redundant entry is not a member of the constructed set. -/
theorem claim_C7_witness :
    Target.GitRepo "p" (some ⟨"c1", [102]⟩) ∈
      [Target.GitRepo "p" (some ⟨"c1", [102]⟩), Target.GitRepo "p" none] ∧
    Target.GitRepo "p" none ∉
      (TargetSet.new (Target.GitRepo "p" (some ⟨"c1", [102]⟩))
        [Target.GitRepo "p" none]).members :=
  ⟨List.mem_cons_self _ _,
   (claim_C7 (Target.GitRepo "p" (some ⟨"c1", [102]⟩)) [Target.GitRepo "p" none]).1
     "p" ⟨"c1", [102]⟩ (List.mem_cons_self _ _)⟩

/-- C3: `analyze` is idempotent: running it twice in a row without any
change to the matches collection produces exactly the same datastore
state (hence findings collection) and the same result as running it once. -/
theorem claim_C3 (ds : Datastore) :
    Datastore.analyze (Datastore.analyze ds).1 = Datastore.analyze ds := by
  unfold Datastore.analyze
  cases h : groupMatches ds.«matches» [] with
  | ok g => simp [h]
  | error e => simp [h]

/-- C9: immediately after `analyze`, every finding document satisfies the
count invariant: `count` equals the number of embedded matches, the four
status counters are `{0, 0, 0, count}`, and `count` equals their sum. -/
theorem claim_C9 (ds : Datastore) (f : FindingDoc)
    (hf : f ∈ (Datastore.analyze ds).1.findings) :
    f.count = f.«matches».length ∧ f.accept_count = 0 ∧ f.reject_count = 0 ∧
    f.mixed_count = 0 ∧ f.unlabeled_count = f.count ∧
    f.count = f.accept_count + f.reject_count + f.mixed_count + f.unlabeled_count := by
  unfold Datastore.analyze at hf
  cases h : groupMatches ds.«matches» [] with
  | ok g =>
    rw [h] at hf
    simp only at hf
    obtain ⟨kv, _, rfl⟩ := List.mem_map.mp hf
    obtain ⟨⟨rn, rsid, fid⟩, ms⟩ := kv
    simp [mkFindingDoc]
  | error e =>
    rw [h] at hf
    simp at hf

/-- Closed witness for C9 at a one-match datastore. -/
theorem claim_C9_witness :
    (mkFindingDoc (("r", "s", ""), [⟨some ⟨some "r", some "t", some "s", none⟩, ["g"], "b", 0⟩]) ∈
      (Datastore.analyze ⟨[⟨some ⟨some "r", some "t", some "s", none⟩, ["g"], "b", 0⟩], []⟩).1.findings) ∧
    (mkFindingDoc (("r", "s", ""), [⟨some ⟨some "r", some "t", some "s", none⟩, ["g"], "b", 0⟩])).count =
      (mkFindingDoc (("r", "s", ""), [⟨some ⟨some "r", some "t", some "s", none⟩, ["g"], "b", 0⟩])).«matches».length :=
  ⟨by decide,
   (claim_C9 ⟨[⟨some ⟨some "r", some "t", some "s", none⟩, ["g"], "b", 0⟩], []⟩
     (mkFindingDoc (("r", "s", ""), [⟨some ⟨some "r", some "t", some "s", none⟩, ["g"], "b", 0⟩]))
     (by decide)).1⟩

/-! ### C1 / C5: evaluating `analyze` at the spec's grouping scenarios

`Datastore::analyze` keys its groups on the *stored* `finding_id` field
of the match subdocument — a field no scanner-written match document has
(the source itself notes `todo: this is always empty`) — instead of the
content hash `Match::finding_id()`.  The documents below realize the
spec's grouping scenario; capture groups live in the documents but never
enter the grouping key. -/

/-- The `"match"` subdocument shared by matches of rule `R1` (no stored
`finding_id`, as the scanner writes them). -/
def mdR1 : MatchData :=
  ⟨some "R1", some "R1", some "R1-sid", none⟩

/-- The `"match"` subdocument shared by matches of rule `R2`. -/
def mdR2 : MatchData :=
  ⟨some "R2", some "R2", some "R2-sid", none⟩

/-- Match A: rule `R1`, groups `[g1]`. -/
def docA : MatchDoc := ⟨some mdR1, ["g1"], "blobA", 0⟩

/-- Match B: rule `R1`, groups `[g1]`. -/
def docB : MatchDoc := ⟨some mdR1, ["g1"], "blobB", 1⟩

/-- Match C: rule `R1`, groups `[g2]`. -/
def docC : MatchDoc := ⟨some mdR1, ["g2"], "blobC", 2⟩

/-- Match D: rule `R2`, groups `[g1]`. -/
def docD : MatchDoc := ⟨some mdR2, ["g1"], "blobD", 3⟩

/-- C1 (failing-input evaluation): on the spec's four-match scenario
`{A: R1 [g1]}, {B: R1 [g1]}, {C: R1 [g2]}, {D: R2 [g1]}` the code
produces 2 findings, not the 3 the claim requires: because the grouping
key uses the always-absent stored `finding_id` field rather than
`Match::finding_id()`, matches A, B and C (same rule, different capture
groups) are merged into one finding. -/
theorem claim_C1 :
    ((Datastore.analyze ⟨[docA, docB, docC, docD], []⟩).1.findings.length = 2) ∧
    (∃ f ∈ (Datastore.analyze ⟨[docA, docB, docC, docD], []⟩).1.findings,
        f.«matches» = [docA, docB, docC]) := by
  refine ⟨rfl, mkFindingDoc (("R1", "R1-sid", ""), [docA, docB, docC]), ?_, rfl⟩
  decide

/-- The `"match"` subdocument of the C5 scenario's matches (rule `r1`). -/
def mdC5 : MatchData :=
  ⟨some "r1", some "r1", some "r1", none⟩

/-- C5 scenario match in blob `b1`, groups `["secret123"]`. -/
def docE : MatchDoc := ⟨some mdC5, ["secret123"], "b1", 10⟩

/-- C5 scenario match in blob `b2`, groups `["secret123"]`. -/
def docF : MatchDoc := ⟨some mdC5, ["secret123"], "b2", 11⟩

/-- C5 (failing-input evaluation): two matches with identical rule and
groups but different blobs are grouped into one finding whose stored
`count` is 2, and `get_finding_metadata` returns one entry — but that
entry's `num_matches` is 0, not 2, because `analyze` stores the match
count under `"count"` while `get_finding_metadata` reads the never-written
`"num_matches"` field and defaults it to 0. -/
theorem claim_C5 :
    ((Datastore.analyze ⟨[docE, docF], []⟩).1.findings.map
        (fun f => f.count) = [2]) ∧
    ((Datastore.analyze ⟨[docE, docF], []⟩).1.get_finding_metadata.length = 1) ∧
    ((Datastore.analyze ⟨[docE, docF], []⟩).1.get_finding_metadata.map
        (fun m => m.num_matches) = [0]) := by
  refine ⟨rfl, rfl, rfl⟩

/-- C4: `import_annotations` classifies each finding annotation by its
`finding_id` key: no stored record → insert and count as imported; a
stored record with an identical comment → increment the existing counter
and write nothing; a stored record with a different comment → increment
the conflicting counter, leave the store unchanged, and discard the
incoming annotation. -/
theorem claim_C4 (coll : List AnnotationDoc) (stats : ImportStats) (fa : FindingAnnotation) :
    (coll.find? (fun x => x.finding_id == fa.finding_id) = none →
        importFindingAnn coll stats fa =
          (coll ++ [fa.toDoc], { stats with n_imported := stats.n_imported + 1 }))
  ∧ (∀ d, coll.find? (fun x => x.finding_id == fa.finding_id) = some d →
        d.comment = fa.comment →
        importFindingAnn coll stats fa =
          (coll, { stats with n_existing := stats.n_existing + 1 }))
  ∧ (∀ d, coll.find? (fun x => x.finding_id == fa.finding_id) = some d →
        d.comment ≠ fa.comment →
        importFindingAnn coll stats fa =
          (coll, { stats with n_conflicting := stats.n_conflicting + 1 })) := by
  refine ⟨?_, ?_, ?_⟩
  · intro hnone
    simp [importFindingAnn, hnone]
  · intro d hfind heq
    simp [importFindingAnn, hfind, heq]
  · intro d hfind hne
    simp [importFindingAnn, hfind, hne]

/-- Closed witness for C4: importing `X → "a"` into a store containing
`X → "b"` is counted as conflicting and the stored comment stays `"b"`. -/
theorem claim_C4_witness :
    (([⟨"X", "r", "t", "s", [], "b", none, none, none, none, none⟩] :
        List AnnotationDoc).find? (fun x => x.finding_id == "X") =
      some ⟨"X", "r", "t", "s", [], "b", none, none, none, none, none⟩) ∧
    ("b" : String) ≠ "a" ∧
    importFindingAnn [⟨"X", "r", "t", "s", [], "b", none, none, none, none, none⟩]
        ImportStats.init ⟨"X", "r", "t", "s", [], "a"⟩ =
      ([⟨"X", "r", "t", "s", [], "b", none, none, none, none, none⟩], ⟨0, 1, 0, 0⟩) :=
  ⟨by decide, by decide,
   (claim_C4 [⟨"X", "r", "t", "s", [], "b", none, none, none, none, none⟩]
       ImportStats.init ⟨"X", "r", "t", "s", [], "a"⟩).2.2
     ⟨"X", "r", "t", "s", [], "b", none, none, none, none, none⟩ (by decide) (by decide)⟩

/-- C10: finding annotations and match annotations share one
`annotations` collection and the pre-existence check is by `finding_id`
alone, so a finding annotation whose `finding_id` equals the `finding_id`
of *any* stored annotation document — match-annotation documents
included — is classified as existing or conflicting and never inserted. -/
theorem claim_C10 (coll : List AnnotationDoc) (stats : ImportStats) (fa : FindingAnnotation)
    (h : ∃ d ∈ coll, d.finding_id = fa.finding_id) :
    (importFindingAnn coll stats fa).1 = coll ∧
    (importFindingAnn coll stats fa).2.n_imported = stats.n_imported ∧
    ((importFindingAnn coll stats fa).2.n_existing = stats.n_existing + 1 ∨
      (importFindingAnn coll stats fa).2.n_conflicting = stats.n_conflicting + 1) := by
  have hsome : (coll.find? (fun x => x.finding_id == fa.finding_id)).isSome := by
    rw [List.find?_isSome]
    obtain ⟨d, hd, he⟩ := h
    exact ⟨d, hd, by simp [he]⟩
  obtain ⟨d, hd⟩ := Option.isSome_iff_exists.mp hsome
  unfold importFindingAnn
  rw [hd]
  by_cases hc : d.comment == fa.comment
  · simp [hc]
  · simp [hc]

/-- Closed witness for C10: a store holding only a *match* annotation
with `finding_id = "X"` blocks the import of a finding annotation keyed
`"X"` (nothing is inserted), even though no finding annotation with that
key exists. -/
theorem claim_C10_witness :
    (⟨"X", "r", "t", "s", [], "mc", some "m1", some "bl", some 0, some 4, none⟩ ∈
        ([⟨"X", "r", "t", "s", [], "mc", some "m1", some "bl", some 0, some 4, none⟩] :
          List AnnotationDoc) ∧
      (⟨"X", "r", "t", "s", [], "mc", some "m1", some "bl", some 0, some 4, none⟩ :
          AnnotationDoc).finding_id = "X") ∧
    (importFindingAnn
        [⟨"X", "r", "t", "s", [], "mc", some "m1", some "bl", some 0, some 4, none⟩]
        ImportStats.init ⟨"X", "r", "t", "s", [], "a"⟩).1 =
      [⟨"X", "r", "t", "s", [], "mc", some "m1", some "bl", some 0, some 4, none⟩] :=
  ⟨⟨List.mem_cons_self _ _, rfl⟩,
   (claim_C10 [⟨"X", "r", "t", "s", [], "mc", some "m1", some "bl", some 0, some 4, none⟩]
       ImportStats.init ⟨"X", "r", "t", "s", [], "a"⟩
       ⟨⟨"X", "r", "t", "s", [], "mc", some "m1", some "bl", some 0, some 4, none⟩,
        List.mem_cons_self _ _, rfl⟩).1⟩

/-! ### C8: summary additivity lemmas -/

/-- Folding one finding into the summary accumulator adds its `count` to
the total of its rule's entry (and to no other rule's). -/
theorem summaryInsert_filter_total (d : FindingDoc) (acc : List FindingSummaryEntry)
    (r : String) :
    (((summaryInsert d acc).filter (fun e => e.rule_name == r)).map
        (fun e => e.total_count)).sum =
      ((acc.filter (fun e => e.rule_name == r)).map (fun e => e.total_count)).sum +
        (if d.rule_name = r then d.count else 0) := by
  induction acc with
  | nil => by_cases h : d.rule_name = r <;> simp [summaryInsert, List.filter_cons, h]
  | cons e rest ih =>
    by_cases he : e.rule_name = d.rule_name
    · simp only [summaryInsert, if_pos he, List.filter_cons]
      by_cases her : e.rule_name = r
      · have hdr : d.rule_name = r := he ▸ her
        simp [her, hdr] <;> omega
      · have hdr : ¬(d.rule_name = r) := fun h => her (he.trans h)
        simp [her, hdr]
    · simp only [summaryInsert, if_neg he, List.filter_cons]
      by_cases her : e.rule_name = r
      · simp [her, ih] <;> omega
      · simp [her, ih]

/-- Folding one finding into the summary accumulator adds 1 to the
distinct count of its rule's entry (and to no other rule's). -/
theorem summaryInsert_filter_distinct (d : FindingDoc) (acc : List FindingSummaryEntry)
    (r : String) :
    (((summaryInsert d acc).filter (fun e => e.rule_name == r)).map
        (fun e => e.distinct_count)).sum =
      ((acc.filter (fun e => e.rule_name == r)).map (fun e => e.distinct_count)).sum +
        (if d.rule_name = r then 1 else 0) := by
  induction acc with
  | nil => by_cases h : d.rule_name = r <;> simp [summaryInsert, List.filter_cons, h]
  | cons e rest ih =>
    by_cases he : e.rule_name = d.rule_name
    · simp only [summaryInsert, if_pos he, List.filter_cons]
      by_cases her : e.rule_name = r
      · have hdr : d.rule_name = r := he ▸ her
        simp [her, hdr] <;> omega
      · have hdr : ¬(d.rule_name = r) := fun h => her (he.trans h)
        simp [her, hdr]
    · simp only [summaryInsert, if_neg he, List.filter_cons]
      by_cases her : e.rule_name = r
      · simp [her, ih] <;> omega
      · simp [her, ih]

/-- The rules represented in the summary accumulator after one insertion. -/
theorem summaryInsert_exists_rule (d : FindingDoc) (acc : List FindingSummaryEntry)
    (r : String) :
    (∃ e ∈ summaryInsert d acc, e.rule_name = r) ↔
      (∃ e ∈ acc, e.rule_name = r) ∨ d.rule_name = r := by
  induction acc with
  | nil => simp [summaryInsert]
  | cons e rest ih =>
    by_cases he : e.rule_name = d.rule_name
    · simp only [summaryInsert, if_pos he, List.mem_cons]
      constructor
      · rintro ⟨x, hx | hx, hr⟩
        · exact Or.inl ⟨e, Or.inl rfl, by subst hx; simpa using hr⟩
        · exact Or.inl ⟨x, Or.inr hx, hr⟩
      · rintro (⟨x, hx | hx, hr⟩ | hr)
        · subst hx
          exact ⟨_, Or.inl rfl, by simpa using hr⟩
        · exact ⟨x, Or.inr hx, hr⟩
        · exact ⟨_, Or.inl rfl, by simpa using he.trans hr⟩
    · simp only [summaryInsert, if_neg he, List.mem_cons]
      constructor
      · rintro ⟨x, hx | hx, hr⟩
        · exact Or.inl ⟨x, Or.inl hx, hr⟩
        · rcases ih.mp ⟨x, hx, hr⟩ with ⟨y, hy, hyr⟩ | hdr
          · exact Or.inl ⟨y, Or.inr hy, hyr⟩
          · exact Or.inr hdr
      · rintro (⟨x, hx | hx, hr⟩ | hr)
        · exact ⟨x, Or.inl hx, hr⟩
        · obtain ⟨y, hy, hyr⟩ := ih.mpr (Or.inl ⟨x, hx, hr⟩)
          exact ⟨y, Or.inr hy, hyr⟩
        · obtain ⟨y, hy, hyr⟩ := ih.mpr (Or.inr hr)
          exact ⟨y, Or.inr hy, hyr⟩

/-- Inserting a finding creates a new summary entry exactly when its rule
has no entry yet. -/
theorem summaryInsert_filter_length (d : FindingDoc) (acc : List FindingSummaryEntry)
    (r : String) :
    ((summaryInsert d acc).filter (fun e => e.rule_name == r)).length =
      (acc.filter (fun e => e.rule_name == r)).length +
        (if d.rule_name = r ∧ ¬(∃ e ∈ acc, e.rule_name = d.rule_name) then 1 else 0) := by
  induction acc with
  | nil => by_cases h : d.rule_name = r <;> simp [summaryInsert, List.filter_cons, h]
  | cons e rest ih =>
    by_cases he : e.rule_name = d.rule_name
    · have hex : ∃ x ∈ e :: rest, x.rule_name = d.rule_name :=
        ⟨e, List.mem_cons_self _ _, he⟩
      have hcond : ¬(d.rule_name = r ∧ ¬∃ x ∈ e :: rest, x.rule_name = d.rule_name) :=
        fun h => h.2 hex
    -- both sides keep or drop the head together, and no new entry appears
      rw [if_neg hcond]
      simp only [summaryInsert, if_pos he, List.filter_cons]
      by_cases her : e.rule_name = r
      · simp [her]
      · simp [her]
    · have hiff : (∃ x ∈ e :: rest, x.rule_name = d.rule_name) ↔
          (∃ x ∈ rest, x.rule_name = d.rule_name) := by
        simp only [List.mem_cons]
        constructor
        · rintro ⟨x, hx | hx, hr⟩
          · exact absurd (hx ▸ hr) he
          · exact ⟨x, hx, hr⟩
        · rintro ⟨x, hx, hr⟩
          exact ⟨x, Or.inr hx, hr⟩
      simp only [summaryInsert, if_neg he, List.filter_cons, hiff]
      push_neg at ih
      by_cases her : e.rule_name = r
      · simp [her, ih]
        try omega
      · simp [her, ih]
        try omega

/-- Total counts over the summary fold: the accumulator's contribution
plus the summed `count` of the processed findings with the given rule. -/
theorem getSummary_go_total (fs : List FindingDoc) (acc : List FindingSummaryEntry)
    (r : String) :
    (((fs.foldl (fun a d => summaryInsert d a) acc).filter
          (fun e => e.rule_name == r)).map (fun e => e.total_count)).sum =
      ((acc.filter (fun e => e.rule_name == r)).map (fun e => e.total_count)).sum +
        ((fs.filter (fun d => d.rule_name == r)).map (fun d => d.count)).sum := by
  induction fs generalizing acc with
  | nil => simp
  | cons d fs ih =>
    simp only [List.foldl_cons]
    rw [ih, summaryInsert_filter_total]
    by_cases h : d.rule_name = r <;> simp [h, List.filter_cons] <;> omega

/-- Distinct counts over the summary fold: the accumulator's contribution
plus the number of processed findings with the given rule. -/
theorem getSummary_go_distinct (fs : List FindingDoc) (acc : List FindingSummaryEntry)
    (r : String) :
    (((fs.foldl (fun a d => summaryInsert d a) acc).filter
          (fun e => e.rule_name == r)).map (fun e => e.distinct_count)).sum =
      ((acc.filter (fun e => e.rule_name == r)).map (fun e => e.distinct_count)).sum +
        (fs.filter (fun d => d.rule_name == r)).length := by
  induction fs generalizing acc with
  | nil => simp
  | cons d fs ih =>
    simp only [List.foldl_cons]
    rw [ih, summaryInsert_filter_distinct]
    by_cases h : d.rule_name = r <;> simp [h, List.filter_cons] <;> omega

/-- Entry multiplicity over the summary fold: at most one entry per rule,
created exactly when some processed finding has that rule and the
accumulator does not yet. -/
theorem getSummary_go_length (fs : List FindingDoc) (acc : List FindingSummaryEntry)
    (r : String) :
    ((fs.foldl (fun a d => summaryInsert d a) acc).filter
        (fun e => e.rule_name == r)).length =
      (acc.filter (fun e => e.rule_name == r)).length +
        (if (∃ d ∈ fs, d.rule_name = r) ∧ ¬(∃ e ∈ acc, e.rule_name = r) then 1 else 0) := by
  induction fs generalizing acc with
  | nil => simp
  | cons d fs ih =>
    simp only [List.foldl_cons]
    rw [ih, summaryInsert_filter_length]
    simp only [summaryInsert_exists_rule, List.mem_cons]
    by_cases hd : d.rule_name = r
    · by_cases hacc : ∃ e ∈ acc, e.rule_name = r
      · simp [hd, hacc]
      · have hacc2 : ¬∃ e ∈ acc, e.rule_name = d.rule_name := by rw [hd]; exact hacc
        simp [hd, hacc, hacc2]
    · by_cases hacc : ∃ e ∈ acc, e.rule_name = r <;>
        by_cases hfs : ∃ x ∈ fs, x.rule_name = r <;>
          simp [hd, hacc, hfs]

/-- The summary has exactly one entry for a rule appearing in the
findings collection and none for any other rule. -/
theorem getSummary_filter_length (ds : Datastore) (r : String) :
    (ds.get_summary.filter (fun e => e.rule_name == r)).length =
      if ∃ d ∈ ds.findings, d.rule_name = r then 1 else 0 := by
  have h := getSummary_go_length ds.findings [] r
  simpa [Datastore.get_summary] using h

/-- C8: `get_summary` produces one entry per distinct rule name of the
findings collection; that entry's `total_count` is the sum of the `count`
fields of the rule's findings and its `distinct_count` is the number of
the rule's findings. -/
theorem claim_C8 (ds : Datastore) :
    (∀ r : String,
        (ds.get_summary.filter (fun e => e.rule_name == r)).length =
          if ∃ d ∈ ds.findings, d.rule_name = r then 1 else 0)
  ∧ (∀ e ∈ ds.get_summary,
        e.total_count =
          ((ds.findings.filter (fun d => d.rule_name == e.rule_name)).map
              (fun d => d.count)).sum ∧
        e.distinct_count =
          (ds.findings.filter (fun d => d.rule_name == e.rule_name)).length) := by
  refine ⟨getSummary_filter_length ds, ?_⟩
  intro e he
  have hmem : e ∈ ds.get_summary.filter (fun x => x.rule_name == e.rule_name) :=
    List.mem_filter.mpr ⟨he, by simp⟩
  have hlen := getSummary_filter_length ds e.rule_name
  have hfind : ∃ d ∈ ds.findings, d.rule_name = e.rule_name := by
    by_contra hno
    rw [if_neg hno, List.length_eq_zero] at hlen
    rw [hlen] at hmem
    exact absurd hmem (List.not_mem_nil e)
  rw [if_pos hfind] at hlen
  obtain ⟨a, ha⟩ := List.length_eq_one.mp hlen
  have hea : e = a := by
    rw [ha] at hmem
    simpa using hmem
  have htot := getSummary_go_total ds.findings [] e.rule_name
  have hdis := getSummary_go_distinct ds.findings [] e.rule_name
  simp only [Datastore.get_summary] at ha
  rw [ha] at htot hdis
  rw [← hea] at htot hdis
  simp at htot hdis
  exact ⟨htot, hdis⟩

/-- A concrete finding document with rule `R` and count 2. -/
def fd1 : FindingDoc :=
  ⟨"R", "s", "", 2, [], 0, 0, 0, 2, none, none, none, none, none⟩

/-- A concrete finding document with rule `R` and count 3. -/
def fd2 : FindingDoc :=
  ⟨"R", "s", "", 3, [], 0, 0, 0, 3, none, none, none, none, none⟩

/-- Closed witness for C8: over two findings of rule `R` with counts 2
and 3, the summary entry for `R` has `total_count = 5`. -/
theorem claim_C8_witness :
    ((⟨"R", 2, 5, 0, 0, 0, 5⟩ : FindingSummaryEntry) ∈
        (Datastore.mk [] [fd1, fd2]).get_summary) ∧
    (⟨"R", 2, 5, 0, 0, 0, 5⟩ : FindingSummaryEntry).total_count =
      (((Datastore.mk [] [fd1, fd2]).findings.filter
          (fun d => d.rule_name == (⟨"R", 2, 5, 0, 0, 0, 5⟩ :
            FindingSummaryEntry).rule_name)).map (fun d => d.count)).sum :=
  ⟨by decide, ((claim_C8 (Datastore.mk [] [fd1, fd2])).2 ⟨"R", 2, 5, 0, 0, 0, 5⟩ (by decide)).1⟩

/-- C2: `compute_structural_id` is a pure deterministic function of
exactly `(rule_structural_id, blob_id, offset_span)` (computing it twice
yields the same digest); `finding_id()` is a pure deterministic function
of exactly `(rule_structural_id, groups)`; and `finding_id()` is
order-sensitive to the groups sequence: permuting the two-element groups
`[b"a", b"b"]` changes the digest. -/
theorem claim_C2 :
    (∀ (r : List Nat) (b : BlobId) (s : OffsetSpan),
        Match.compute_structural_id r b s = Match.compute_structural_id r b s)
  ∧ (∀ m₁ m₂ : Match, m₁.rule_structural_id = m₂.rule_structural_id →
        m₁.groups = m₂.groups → m₁.finding_id = m₂.finding_id)
  ∧ (mkTestMatch [114] [[97], [98]]).groups.groups =
      ((mkTestMatch [114] [[98], [97]]).groups.groups).reverse
  ∧ (mkTestMatch [114] [[97], [98]]).finding_id ≠
      (mkTestMatch [114] [[98], [97]]).finding_id := by
  refine ⟨fun r b s => rfl, ?_, rfl, ?_⟩
  · intro m₁ m₂ h1 h2
    simp [Match.finding_id, h1, h2]
  · decide

/-- Closed witness for C2: two matches agreeing on rule and groups but
differing in blob have equal `finding_id`. -/
theorem claim_C2_witness :
    ((mkTestMatch [114] [[97]]).rule_structural_id =
        ({ mkTestMatch [114] [[97]] with blob_id := ⟨[99]⟩ } : Match).rule_structural_id) ∧
    ((mkTestMatch [114] [[97]]).groups =
        ({ mkTestMatch [114] [[97]] with blob_id := ⟨[99]⟩ } : Match).groups) ∧
    ((mkTestMatch [114] [[97]]).finding_id =
        ({ mkTestMatch [114] [[97]] with blob_id := ⟨[99]⟩ } : Match).finding_id) :=
  ⟨rfl, rfl,
   claim_C2.2.1 (mkTestMatch [114] [[97]])
     ({ mkTestMatch [114] [[97]] with blob_id := ⟨[99]⟩ } : Match) rfl rfl⟩

end NoseyParker
